import Mathlib

/-!
Shallow embedding of the hotel-management program
`final-project-inteprog-ATIENZA-MACANDILE.cpp`.

C++ `double` amounts are modelled as exact rationals (`ℚ`); C++ `int` is
modelled as `Int`.  The `Hotel` class's two vectors become `List`s, and the
`Reservation::idCounter` static member becomes an explicit `idCounter` field
threaded through the registry state.  Every loop that scans a vector and acts
on the first matching element is translated as structural recursion on the
corresponding list.
-/

namespace HotelMgmt

/-- The closed set of billing strategies: `RegularBilling`, `PremiumBilling`,
`CorporateBilling` (source lines 18-46). -/
inductive BillingStrategy where
  | regular
  | premium
  | corporate
deriving DecidableEq

/-- `calculateBill` virtual method of each strategy (source lines 20-22,
30-32, 40-42): Regular `baseRate * nights`, Premium `baseRate * nights * 1.10`,
Corporate `baseRate * nights * 0.85`. -/
def BillingStrategy.calculateBill : BillingStrategy → ℚ → Int → ℚ
  | .regular, baseRate, nights => baseRate * nights
  | .premium, baseRate, nights => baseRate * nights * (110 / 100)
  | .corporate, baseRate, nights => baseRate * nights * (85 / 100)

/-- `Room::RoomType` (source line 50). -/
inductive RoomType where
  | single
  | double
  | deluxe
  | suite
deriving DecidableEq

/-- The `Room` class state (source lines 48-91).  The constructor sets
`isAvailable` to `true`. -/
structure Room where
  roomNumber : Int
  type : RoomType
  baseRate : ℚ
  isAvailable : Bool
  billingStrategy : BillingStrategy
  maxGuests : Int
deriving DecidableEq

/-- Error outcomes surfaced as C++ exceptions: `invalid_argument` from
`Room::calculateBill` and `runtime_error("Invalid date range.")` from
`viewReservationDetails`. -/
inductive Err where
  | invalidArgument
  | invalidDateRange
deriving DecidableEq

deriving instance DecidableEq for Except

/-- `Room::calculateBill` (source lines 73-76): throws `invalid_argument` for
`nights <= 0`, otherwise delegates to the billing strategy. -/
def Room.calculateBill (room : Room) (nights : Int) : Except Err ℚ :=
  if nights ≤ 0 then .error .invalidArgument
  else .ok (room.billingStrategy.calculateBill room.baseRate nights)

/-- The `Reservation` class state (source lines 93-126).  Dates are stored as
the raw strings the program reads. -/
structure Reservation where
  reservationID : Int
  guestName : String
  contactInfo : String
  roomNumber : Int
  checkInDate : String
  checkOutDate : String
  numberOfGuests : Int
deriving DecidableEq

/-- The `Hotel` class state (source lines 130-133) together with the static
`Reservation::idCounter` (source lines 95, 128), threaded explicitly.
A fresh program run starts with `idCounter = 0`. -/
structure Hotel where
  rooms : List Room
  reservations : List Reservation
  idCounter : Int
deriving DecidableEq

/-! ### First-match helpers mirroring the C++ vector scans -/

/-- Scan for the first room with a given number (the pattern of every
`for (auto& room : rooms) if (room.getRoomNumber() == n)` loop). -/
def findRoom : List Room → Int → Option Room
  | [], _ => none
  | room :: rest, rn =>
      if room.roomNumber = rn then some room else findRoom rest rn

/-- Modify the first room with a given number in place, as the C++ loops do;
if no room matches, the list is unchanged. -/
def modifyRoomFirst : List Room → Int → (Room → Room) → List Room
  | [], _, _ => []
  | room :: rest, rn, f =>
      if room.roomNumber = rn then f room :: rest
      else room :: modifyRoomFirst rest rn f

/-- `room.setAvailability(b)` applied to the first room with number `rn`. -/
def setAvailFirst (rooms : List Room) (rn : Int) (b : Bool) : List Room :=
  modifyRoomFirst rooms rn (fun room => { room with isAvailable := b })

/-- Scan for the first reservation with a given id. -/
def findRes : List Reservation → Int → Option Reservation
  | [], _ => none
  | r :: rest, rid =>
      if r.reservationID = rid then some r else findRes rest rid

/-- Mutate the first reservation with a given id in place. -/
def modifyResFirst : List Reservation → Int → (Reservation → Reservation) → List Reservation
  | [], _, _ => []
  | r :: rest, rid, f =>
      if r.reservationID = rid then f r :: rest
      else r :: modifyResFirst rest rid f

/-- `reservations.erase(it)` at the first reservation with a given id. -/
def removeResFirst : List Reservation → Int → List Reservation
  | [], _ => []
  | r :: rest, rid =>
      if r.reservationID = rid then rest else r :: removeResFirst rest rid

/-- `rooms.erase(it)` at the first room with a given number
(`Hotel::deleteRoom`, source lines 144-155). -/
def removeRoomFirst : List Room → Int → List Room
  | [], _ => []
  | room :: rest, rn =>
      if room.roomNumber = rn then rest else room :: removeRoomFirst rest rn

/-! ### Registry operations -/

/-- `Hotel::addRoom` (source lines 140-142): appends a room, available. -/
def Hotel.addRoom (h : Hotel) (number : Int) (type : RoomType) (rate : ℚ)
    (strategy : BillingStrategy) (guests : Int) : Hotel :=
  { h with rooms := h.rooms ++
      [{ roomNumber := number, type := type, baseRate := rate,
         isAvailable := true, billingStrategy := strategy, maxGuests := guests }] }

/-- `Hotel::deleteRoom` (source lines 144-155). -/
def Hotel.deleteRoom (h : Hotel) (rn : Int) : Hotel :=
  { h with rooms := removeRoomFirst h.rooms rn }

/-- `Hotel::updateRoomRate` (source lines 157-168). -/
def Hotel.updateRoomRate (h : Hotel) (rn : Int) (newRate : ℚ) : Hotel :=
  { h with rooms := modifyRoomFirst h.rooms rn (fun room => { room with baseRate := newRate }) }

/-- `Hotel::updateRoomBillingStrategy` (source lines 170-181). -/
def Hotel.updateRoomStrategy (h : Hotel) (rn : Int) (s : BillingStrategy) : Hotel :=
  { h with rooms := modifyRoomFirst h.rooms rn (fun room => { room with billingStrategy := s }) }

/-- The four ways `Hotel::makeReservation` can exit (source lines 248-271). -/
inductive MkOutcome where
  | notFound
  | capacityExceeded
  | roomUnavailable
  | created
deriving DecidableEq

/-- The room-scanning loop of `Hotel::makeReservation` (source lines 249-269):
at the first room with the requested number, reject on capacity
(`guests > maxGuests`), then book if available (flipping the flag), else
reject on availability; if no room matches, report not-found. -/
def mkResRooms : List Room → Int → Int → List Room × MkOutcome
  | [], _, _ => ([], .notFound)
  | room :: rest, rn, guests =>
      if room.roomNumber = rn then
        if guests > room.maxGuests then (room :: rest, .capacityExceeded)
        else if room.isAvailable then
          ({ room with isAvailable := false } :: rest, .created)
        else (room :: rest, .roomUnavailable)
      else
        let p := mkResRooms rest rn guests
        (room :: p.1, p.2)

/-- `Hotel::makeReservation` (source lines 248-271).  On success the new
`Reservation` gets id `++idCounter` (source line 107) and is appended. -/
def Hotel.makeReservation (h : Hotel) (guestName contactInfo : String)
    (roomNumber : Int) (checkIn checkOut : String) (guests : Int) :
    Hotel × MkOutcome :=
  let p := mkResRooms h.rooms roomNumber guests
  match p.2 with
  | .created =>
      ({ rooms := p.1,
         reservations := h.reservations ++
           [{ reservationID := h.idCounter + 1, guestName := guestName,
              contactInfo := contactInfo, roomNumber := roomNumber,
              checkInDate := checkIn, checkOutDate := checkOut,
              numberOfGuests := guests }],
         idCounter := h.idCounter + 1 }, .created)
  | o => ({ h with rooms := p.1 }, o)

/-- `Hotel::cancelReservation` (source lines 276-293): find the reservation,
set the first room with its number back to available, erase the
reservation; not-found otherwise.  The `Bool` reports success. -/
def Hotel.cancelReservation (h : Hotel) (rid : Int) : Hotel × Bool :=
  match findRes h.reservations rid with
  | none => (h, false)
  | some r =>
      ({ h with rooms := setAvailFirst h.rooms r.roomNumber true,
                reservations := removeResFirst h.reservations rid }, true)

/-- `Hotel::updateReservation` case 1, change number of guests (source lines
376-395): validate against the first room carrying the reservation's number
(if any room does), then overwrite the guest count. -/
def Hotel.updateGuests (h : Hotel) (rid newGuests : Int) : Hotel × Bool :=
  let rs := modifyResFirst h.reservations rid
    (fun q => { q with numberOfGuests := newGuests })
  match findRes h.reservations rid with
  | none => (h, false)
  | some r =>
      match findRoom h.rooms r.roomNumber with
      | some room =>
          if newGuests > room.maxGuests then (h, false)
          else ({ h with reservations := rs }, true)
      | none => ({ h with reservations := rs }, true)

/-- `Hotel::updateReservation` case 2, change room (source lines 396-428):
find the new room, check capacity against it, free the first room with the
old number, repoint the reservation and occupy the new room.  The code
performs no availability check on the new room. -/
def Hotel.changeRoom (h : Hotel) (rid newRoomNumber : Int) : Hotel × Bool :=
  match findRes h.reservations rid with
  | none => (h, false)
  | some r =>
      match findRoom h.rooms newRoomNumber with
      | none => (h, false)
      | some newRoom =>
          if r.numberOfGuests > newRoom.maxGuests then (h, false)
          else
            let rooms2 := setAvailFirst (setAvailFirst h.rooms r.roomNumber true)
              newRoomNumber false
            let rs := modifyResFirst h.reservations rid
              (fun q => { q with roomNumber := newRoomNumber })
            ({ h with rooms := rooms2, reservations := rs }, true)

/-- `Hotel::updateReservation` case 3, change dates (source lines 429-439):
unconditional overwrite, no validation. -/
def Hotel.changeDates (h : Hotel) (rid : Int) (cin cout : String) : Hotel × Bool :=
  let rs := modifyResFirst h.reservations rid
    (fun q => { q with checkInDate := cin, checkOutDate := cout })
  match findRes h.reservations rid with
  | none => (h, false)
  | some _ => ({ h with reservations := rs }, true)

/-! ### Night counting (`Hotel::viewReservationDetails`, source lines 313-361) -/

/-- A `DD/MM/YYYY` date as the three `%d` fields `sscanf` extracts
(source lines 325-328). -/
structure ParsedDate where
  day : Int
  month : Int
  year : Int
deriving DecidableEq

/-- The fixed month-length table (source line 338). -/
def daysInMonth : List Int := [31, 28, 31, 30, 31, 30, 31, 31, 30, 31, 30, 31]

/-- `daysInMonth[i]` with an explicit guard: the C++ array access is
undefined behaviour outside `[0, 12)`; the model returns `0` there. -/
def dimAt (i : Int) : Int :=
  if 0 ≤ i ∧ i < 12 then daysInMonth.getD i.toNat 0 else 0

/-- The invalid-date-range test (source lines 332-334). -/
def invalidRange (din dout : ParsedDate) : Bool :=
  (din.year > dout.year) ||
    (din.year == dout.year && din.month > dout.month) ||
    (din.year == dout.year && din.month == dout.month && din.day ≥ dout.day)

/-- The night-count formula (source lines 338-346):
`daysInMonth[inMonth-1] - inDay`, plus `daysInMonth[m]` for
`m = inMonth` while `m < outMonth - 1`, plus `outDay`. -/
def nightsBetween (din dout : ParsedDate) : Int :=
  (dimAt (din.month - 1) - din.day)
    + (((List.range (dout.month - 1 - din.month).toNat).map
          (fun k => dimAt (din.month + k))).sum)
    + dout.day

/-- The date-validation-plus-night-count portion of
`Hotel::viewReservationDetails` (source lines 330-346): throws
`runtime_error("Invalid date range.")` exactly when `invalidRange` holds,
otherwise yields the night count. -/
def computeNights (din dout : ParsedDate) : Except Err Int :=
  if invalidRange din dout then .error .invalidDateRange
  else .ok (nightsBetween din dout)

/-- Split a character list at every `'/'`, accumulating the current field in
reverse. -/
def splitSlashAux : List Char → List Char → List (List Char)
  | [], acc => [acc.reverse]
  | c :: rest, acc =>
      if c = '/' then acc.reverse :: splitSlashAux rest []
      else splitSlashAux rest (c :: acc)

/-- Decimal value of a digit prefix, accumulator style. -/
def digitsVal : List Char → Int → Int
  | [], acc => acc
  | c :: rest, acc => digitsVal rest (acc * 10 + (Int.ofNat c.toNat - 48))

/-- `%d` on one field: the value of its leading digit run (`0` when the field
starts with a non-digit, standing in for `sscanf` leaving the variable
unset). -/
def fieldToInt (cs : List Char) : Int :=
  digitsVal (cs.takeWhile Char.isDigit) 0

/-- `sscanf(s, "%d/%d/%d", &day, &month, &year)` on a well-formed
`DD/MM/YYYY` string (source lines 327-328). -/
def parseDate (s : String) : ParsedDate :=
  match splitSlashAux s.toList [] with
  | [d, m, y] => { day := fieldToInt d, month := fieldToInt m, year := fieldToInt y }
  | _ => { day := 0, month := 0, year := 0 }

/-- Night counting as applied to a reservation's stored date strings. -/
def viewNights (checkIn checkOut : String) : Except Err Int :=
  computeNights (parseDate checkIn) (parseDate checkOut)

/-! ### Operation alphabet over the registry -/

/-- One registry operation, covering every mutating `Hotel` member function;
`updateReservation`'s three sub-operations appear separately because the C++
dispatches them on interactive input. -/
inductive Op where
  | addRoom (number : Int) (type : RoomType) (rate : ℚ)
      (strategy : BillingStrategy) (guests : Int)
  | deleteRoom (number : Int)
  | updateRoomRate (number : Int) (newRate : ℚ)
  | updateRoomStrategy (number : Int) (s : BillingStrategy)
  | makeRes (guestName contactInfo : String) (roomNumber : Int)
      (checkIn checkOut : String) (guests : Int)
  | cancelRes (rid : Int)
  | updGuests (rid newGuests : Int)
  | changeRoom (rid newRoomNumber : Int)
  | changeDates (rid : Int) (checkIn checkOut : String)

/-- Apply one operation to the registry state. -/
def Hotel.applyOp (h : Hotel) : Op → Hotel
  | .addRoom n t r s g => h.addRoom n t r s g
  | .deleteRoom n => h.deleteRoom n
  | .updateRoomRate n r => h.updateRoomRate n r
  | .updateRoomStrategy n s => h.updateRoomStrategy n s
  | .makeRes gn ci rn cin cout g => (h.makeReservation gn ci rn cin cout g).1
  | .cancelRes rid => (h.cancelReservation rid).1
  | .updGuests rid n => (h.updateGuests rid n).1
  | .changeRoom rid rn => (h.changeRoom rid rn).1
  | .changeDates rid cin cout => (h.changeDates rid cin cout).1

/-- Apply a sequence of operations left to right. -/
def Hotel.runOps (h : Hotel) (ops : List Op) : Hotel :=
  ops.foldl Hotel.applyOp h

/-- The operations named by the availability invariant that do not reassign a
reservation's room: `makeReservation`, `cancelReservation`, and
`updateReservation`'s guest-count and date changes. -/
def Op.keepsRoomLink : Op → Bool
  | .makeRes .. => true
  | .cancelRes _ => true
  | .updGuests .. => true
  | .changeDates .. => true
  | _ => false

/-- Number of active reservations referencing room number `m`. -/
def activeCount (rs : List Reservation) (m : Int) : Nat :=
  rs.countP (fun r => r.roomNumber == m)

/-- The per-room availability bookkeeping that actually holds along
reservation-safe runs: an available room has no active reservation against
its number, an occupied room exactly one. -/
abbrev availInv (h : Hotel) : Prop :=
  ∀ room ∈ h.rooms, activeCount h.reservations room.roomNumber =
    (if room.isAvailable = true then 0 else 1)

/-- Room numbers are pairwise distinct (the shell enforces this at
room-creation time; source lines 521-533). -/
abbrev roomsNodup (h : Hotel) : Prop :=
  (h.rooms.map Room.roomNumber).Nodup

/-- Guest counts fit the capacity of the referenced room (first match by
number) whenever that room exists. -/
def guestInv (h : Hotel) : Prop :=
  ∀ r ∈ h.reservations, ∀ room, findRoom h.rooms r.roomNumber = some room →
    r.numberOfGuests ≤ room.maxGuests




/-! ### Lemmas about the first-match scans -/

theorem findRoom_eq_some {rooms : List Room} {rn : Int} {room : Room}
    (h : findRoom rooms rn = some room) : room ∈ rooms ∧ room.roomNumber = rn := by
  induction rooms with
  | nil => simp [findRoom] at h
  | cons a t ih =>
      by_cases ha : a.roomNumber = rn
      · simp only [findRoom, if_pos ha, Option.some.injEq] at h
        exact ⟨by simp [← h], h ▸ ha⟩
      · simp only [findRoom, if_neg ha] at h
        rcases ih h with ⟨h1, h2⟩
        exact ⟨List.mem_cons_of_mem _ h1, h2⟩

theorem modifyRoomFirst_of_findRoom_none {rooms : List Room} {rn : Int}
    {f : Room → Room} (h : findRoom rooms rn = none) :
    modifyRoomFirst rooms rn f = rooms := by
  induction rooms with
  | nil => rfl
  | cons a t ih =>
      by_cases ha : a.roomNumber = rn
      · simp [findRoom, if_pos ha] at h
      · simp only [findRoom, if_neg ha] at h
        simp [modifyRoomFirst, if_neg ha, ih h]

theorem map_roomNumber_modifyRoomFirst {rooms : List Room} {rn : Int}
    {f : Room → Room} (hf : ∀ r, (f r).roomNumber = r.roomNumber) :
    (modifyRoomFirst rooms rn f).map Room.roomNumber = rooms.map Room.roomNumber := by
  induction rooms with
  | nil => rfl
  | cons a t ih =>
      by_cases ha : a.roomNumber = rn
      · simp [modifyRoomFirst, if_pos ha, hf a]
      · simp [modifyRoomFirst, if_neg ha, ih]

theorem findRoom_modifyRoomFirst {rooms : List Room} {rn m : Int}
    {f : Room → Room} (hf : ∀ r, (f r).roomNumber = r.roomNumber) :
    findRoom (modifyRoomFirst rooms rn f) m =
      if m = rn then (findRoom rooms rn).map f else findRoom rooms m := by
  induction rooms with
  | nil => by_cases hm : m = rn <;> simp [modifyRoomFirst, findRoom, hm]
  | cons a t ih =>
      by_cases ha : a.roomNumber = rn
      · by_cases hm : m = rn
        · subst hm
          simp [modifyRoomFirst, if_pos ha, findRoom, hf a, ha]
        · have h1 : ¬ (f a).roomNumber = m := by
            rw [hf a, ha]; exact fun hc => hm hc.symm
          have h2 : ¬ a.roomNumber = m := by
            rw [ha]; exact fun hc => hm hc.symm
          simp [modifyRoomFirst, if_pos ha, findRoom, h1, h2, hm]
      · by_cases hm : m = rn
        · subst hm
          simp [modifyRoomFirst, if_neg ha, findRoom, ha, ih]
        · by_cases ham : a.roomNumber = m
          · simp [modifyRoomFirst, if_neg ha, findRoom, ham, hm]
          · simp [modifyRoomFirst, if_neg ha, findRoom, ham, hm, ih]

theorem mem_modifyRoomFirst {rooms : List Room} {rn : Int} {f : Room → Room}
    {room' : Room} (hnd : (rooms.map Room.roomNumber).Nodup)
    (hmem : room' ∈ modifyRoomFirst rooms rn f) :
    (room' ∈ rooms ∧ room'.roomNumber ≠ rn) ∨
      ∃ room, findRoom rooms rn = some room ∧ room' = f room := by
  induction rooms with
  | nil => simp [modifyRoomFirst] at hmem
  | cons a t ih =>
      rw [List.map_cons, List.nodup_cons] at hnd
      by_cases ha : a.roomNumber = rn
      · simp only [modifyRoomFirst, if_pos ha, List.mem_cons] at hmem
        rcases hmem with hmem | hmem
        · exact Or.inr ⟨a, by simp [findRoom, ha], hmem⟩
        · refine Or.inl ⟨List.mem_cons_of_mem _ hmem, fun hc => ?_⟩
          exact hnd.1 (by rw [← ha] at hc; exact hc ▸ List.mem_map_of_mem _ hmem)
      · simp only [modifyRoomFirst, if_neg ha, List.mem_cons] at hmem
        rcases hmem with hmem | hmem
        · exact Or.inl ⟨by simp [hmem], by rw [hmem]; exact ha⟩
        · rcases ih hnd.2 hmem with ⟨h1, h2⟩ | ⟨room, h1, h2⟩
          · exact Or.inl ⟨List.mem_cons_of_mem _ h1, h2⟩
          · exact Or.inr ⟨room, by simp [findRoom, if_neg ha, h1], h2⟩

theorem findRes_eq_some {rs : List Reservation} {rid : Int} {r : Reservation}
    (h : findRes rs rid = some r) : r ∈ rs ∧ r.reservationID = rid := by
  induction rs with
  | nil => simp [findRes] at h
  | cons a t ih =>
      by_cases ha : a.reservationID = rid
      · simp only [findRes, if_pos ha, Option.some.injEq] at h
        exact ⟨by simp [← h], h ▸ ha⟩
      · simp only [findRes, if_neg ha] at h
        rcases ih h with ⟨h1, h2⟩
        exact ⟨List.mem_cons_of_mem _ h1, h2⟩

theorem mem_removeResFirst {rs : List Reservation} {rid : Int} {r' : Reservation}
    (h : r' ∈ removeResFirst rs rid) : r' ∈ rs := by
  induction rs with
  | nil => simp [removeResFirst] at h
  | cons a t ih =>
      by_cases ha : a.reservationID = rid
      · rw [removeResFirst, if_pos ha] at h
        exact List.mem_cons_of_mem _ h
      · rw [removeResFirst, if_neg ha] at h
        rcases List.mem_cons.mp h with h | h
        · exact h ▸ List.mem_cons_self _ _
        · exact List.mem_cons_of_mem _ (ih h)

theorem mem_modifyResFirst {rs : List Reservation} {rid : Int}
    {f : Reservation → Reservation} {r' : Reservation}
    (hmem : r' ∈ modifyResFirst rs rid f) :
    r' ∈ rs ∨ ∃ r, findRes rs rid = some r ∧ r' = f r := by
  induction rs with
  | nil => simp [modifyResFirst] at hmem
  | cons a t ih =>
      by_cases ha : a.reservationID = rid
      · simp only [modifyResFirst, if_pos ha, List.mem_cons] at hmem
        rcases hmem with hmem | hmem
        · exact Or.inr ⟨a, by simp [findRes, ha], hmem⟩
        · exact Or.inl (List.mem_cons_of_mem _ hmem)
      · simp only [modifyResFirst, if_neg ha, List.mem_cons] at hmem
        rcases hmem with hmem | hmem
        · exact Or.inl (by simp [hmem])
        · rcases ih hmem with h | ⟨r, h1, h2⟩
          · exact Or.inl (List.mem_cons_of_mem _ h)
          · exact Or.inr ⟨r, by simp [findRes, if_neg ha, h1], h2⟩

/-! ### Lemmas about `activeCount` -/

theorem activeCount_cons {a : Reservation} {rs : List Reservation} {m : Int} :
    activeCount (a :: rs) m =
      activeCount rs m + (if a.roomNumber = m then 1 else 0) := by
  by_cases ha : a.roomNumber = m <;>
    simp [activeCount, List.countP_cons, ha]

theorem activeCount_append_single {rs : List Reservation} {r : Reservation} {m : Int} :
    activeCount (rs ++ [r]) m =
      activeCount rs m + (if r.roomNumber = m then 1 else 0) := by
  by_cases hr : r.roomNumber = m <;>
    simp [activeCount, List.countP_append, List.countP_cons, hr]

theorem activeCount_removeResFirst {rs : List Reservation} {rid : Int}
    {r : Reservation} (h : findRes rs rid = some r) (m : Int) :
    activeCount rs m =
      activeCount (removeResFirst rs rid) m + (if r.roomNumber = m then 1 else 0) := by
  induction rs with
  | nil => simp [findRes] at h
  | cons a t ih =>
      by_cases ha : a.reservationID = rid
      · simp only [findRes, if_pos ha, Option.some.injEq] at h
        rw [removeResFirst, if_pos ha, activeCount_cons, h]
      · simp only [findRes, if_neg ha] at h
        rw [removeResFirst, if_neg ha, activeCount_cons, activeCount_cons, ih h]
        omega

theorem activeCount_modifyResFirst (rs : List Reservation) (rid : Int)
    (f : Reservation → Reservation)
    (hf : ∀ q, (f q).roomNumber = q.roomNumber) (m : Int) :
    activeCount (modifyResFirst rs rid f) m = activeCount rs m := by
  induction rs with
  | nil => rfl
  | cons a t ih =>
      by_cases ha : a.reservationID = rid
      · rw [modifyResFirst, if_pos ha, activeCount_cons, activeCount_cons, hf a]
      · rw [modifyResFirst, if_neg ha, activeCount_cons, activeCount_cons, ih]

/-! ### Characterizing the `makeReservation` room scan -/

theorem mkResRooms_of_none {rooms : List Room} {rn : Int} (g : Int)
    (h : findRoom rooms rn = none) : mkResRooms rooms rn g = (rooms, .notFound) := by
  induction rooms with
  | nil => rfl
  | cons a t ih =>
      by_cases ha : a.roomNumber = rn
      · simp [findRoom, if_pos ha] at h
      · simp only [findRoom, if_neg ha] at h
        simp [mkResRooms, if_neg ha, ih h]

theorem mkResRooms_capacity {rooms : List Room} {rn : Int} {room : Room} {g : Int}
    (h : findRoom rooms rn = some room) (hg : room.maxGuests < g) :
    mkResRooms rooms rn g = (rooms, .capacityExceeded) := by
  induction rooms with
  | nil => simp [findRoom] at h
  | cons a t ih =>
      by_cases ha : a.roomNumber = rn
      · simp only [findRoom, if_pos ha, Option.some.injEq] at h
        subst h
        simp only [mkResRooms, if_pos ha]
        rw [if_pos hg]
      · simp only [findRoom, if_neg ha] at h
        simp [mkResRooms, if_neg ha, ih h]

theorem mkResRooms_unavailable {rooms : List Room} {rn : Int} {room : Room} {g : Int}
    (h : findRoom rooms rn = some room) (hg : g ≤ room.maxGuests)
    (hav : room.isAvailable = false) :
    mkResRooms rooms rn g = (rooms, .roomUnavailable) := by
  induction rooms with
  | nil => simp [findRoom] at h
  | cons a t ih =>
      by_cases ha : a.roomNumber = rn
      · simp only [findRoom, if_pos ha, Option.some.injEq] at h
        subst h
        have hng : ¬ g > a.maxGuests := not_lt.mpr hg
        have hnav : ¬ a.isAvailable = true := by simp [hav]
        simp only [mkResRooms, if_pos ha]
        rw [if_neg hng, if_neg hnav]
      · simp only [findRoom, if_neg ha] at h
        simp [mkResRooms, if_neg ha, ih h]

theorem mkResRooms_created {rooms : List Room} {rn : Int} {room : Room} {g : Int}
    (h : findRoom rooms rn = some room) (hg : g ≤ room.maxGuests)
    (hav : room.isAvailable = true) :
    mkResRooms rooms rn g = (setAvailFirst rooms rn false, .created) := by
  induction rooms with
  | nil => simp [findRoom] at h
  | cons a t ih =>
      by_cases ha : a.roomNumber = rn
      · simp only [findRoom, if_pos ha, Option.some.injEq] at h
        subst h
        have hng : ¬ g > a.maxGuests := not_lt.mpr hg
        simp only [mkResRooms, if_pos ha]
        rw [if_neg hng, if_pos hav]
        simp [setAvailFirst, modifyRoomFirst, if_pos ha]
      · simp only [findRoom, if_neg ha] at h
        simp [mkResRooms, if_neg ha, ih h, setAvailFirst, modifyRoomFirst]

theorem mkResRooms_created_inv {rooms : List Room} {rn g : Int}
    (h : (mkResRooms rooms rn g).2 = .created) :
    ∃ room, findRoom rooms rn = some room ∧ g ≤ room.maxGuests ∧
      room.isAvailable = true := by
  induction rooms with
  | nil => simp [mkResRooms] at h
  | cons a t ih =>
      by_cases ha : a.roomNumber = rn
      · by_cases hg : g > a.maxGuests
        · simp [mkResRooms, if_pos ha, hg] at h
        · by_cases hav : a.isAvailable = true
          · exact ⟨a, by simp [findRoom, ha], not_lt.mp hg, hav⟩
          · simp [mkResRooms, if_pos ha, hg, hav] at h
      · simp only [mkResRooms, if_neg ha] at h
        rcases ih h with ⟨room, h1, h2, h3⟩
        exact ⟨room, by simp [findRoom, if_neg ha, h1], h2, h3⟩

theorem mkResRooms_ne_created {rooms : List Room} {rn g : Int}
    (h : (mkResRooms rooms rn g).2 ≠ .created) :
    (mkResRooms rooms rn g).1 = rooms := by
  induction rooms with
  | nil => rfl
  | cons a t ih =>
      by_cases ha : a.roomNumber = rn
      · by_cases hg : g > a.maxGuests
        · simp [mkResRooms, if_pos ha, hg]
        · by_cases hav : a.isAvailable = true
          · simp [mkResRooms, if_pos ha, hg, hav] at h
          · simp [mkResRooms, if_pos ha, hg, hav]
      · simp only [mkResRooms, if_neg ha] at h ⊢
        simp [ih h]

/-! ### State-shape lemmas for the registry operations -/

theorem map_roomNumber_setAvailFirst {rooms : List Room} {rn : Int} {b : Bool} :
    (setAvailFirst rooms rn b).map Room.roomNumber = rooms.map Room.roomNumber :=
  map_roomNumber_modifyRoomFirst (fun _ => rfl)

theorem makeReservation_created_state {h : Hotel} {gn ci : String} {rn : Int}
    {cin cout : String} {g : Int} {room : Room}
    (hfind : findRoom h.rooms rn = some room) (hg : g ≤ room.maxGuests)
    (hav : room.isAvailable = true) :
    h.makeReservation gn ci rn cin cout g =
      ({ rooms := setAvailFirst h.rooms rn false,
         reservations := h.reservations ++
           [{ reservationID := h.idCounter + 1, guestName := gn,
              contactInfo := ci, roomNumber := rn,
              checkInDate := cin, checkOutDate := cout,
              numberOfGuests := g }],
         idCounter := h.idCounter + 1 }, .created) := by
  simp [Hotel.makeReservation, mkResRooms_created hfind hg hav]

theorem makeReservation_stuck_state {h : Hotel} {gn ci : String} {rn : Int}
    {cin cout : String} {g : Int}
    (hne : (mkResRooms h.rooms rn g).2 ≠ .created) :
    h.makeReservation gn ci rn cin cout g = (h, (mkResRooms h.rooms rn g).2) := by
  have h1 := mkResRooms_ne_created hne
  cases hp : (mkResRooms h.rooms rn g).2 with
  | created => exact absurd hp hne
  | notFound => simp [Hotel.makeReservation, hp, h1]
  | capacityExceeded => simp [Hotel.makeReservation, hp, h1]
  | roomUnavailable => simp [Hotel.makeReservation, hp, h1]

theorem updateGuests_state (h : Hotel) (rid n : Int) :
    (h.updateGuests rid n).1.rooms = h.rooms ∧
      (h.updateGuests rid n).1.idCounter = h.idCounter ∧
      ∀ m, activeCount (h.updateGuests rid n).1.reservations m =
        activeCount h.reservations m := by
  unfold Hotel.updateGuests
  cases hr : findRes h.reservations rid with
  | none => simp
  | some r =>
      have hc := activeCount_modifyResFirst h.reservations rid
        (fun q => { q with numberOfGuests := n }) (fun _ => rfl)
      cases hf : findRoom h.rooms r.roomNumber with
      | none => simp [hf, hc]
      | some room =>
          by_cases hg : n > room.maxGuests
          · simp [hf, hg]
          · simp [hf, hg, hc]

theorem changeDates_state (h : Hotel) (rid : Int) (cin cout : String) :
    (h.changeDates rid cin cout).1.rooms = h.rooms ∧
      (h.changeDates rid cin cout).1.idCounter = h.idCounter ∧
      ∀ m, activeCount (h.changeDates rid cin cout).1.reservations m =
        activeCount h.reservations m := by
  unfold Hotel.changeDates
  cases hr : findRes h.reservations rid with
  | none => simp
  | some r =>
      simp [activeCount_modifyResFirst h.reservations rid
        (fun q => { q with checkInDate := cin, checkOutDate := cout }) (fun _ => rfl)]

/-! ### Preservation of the availability bookkeeping -/

theorem makeReservation_preserves_inv {h : Hotel} (gn ci : String) (rn : Int)
    (cin cout : String) (g : Int) (hnd : roomsNodup h) (hinv : availInv h) :
    roomsNodup (h.makeReservation gn ci rn cin cout g).1 ∧
      availInv (h.makeReservation gn ci rn cin cout g).1 := by
  by_cases hp : (mkResRooms h.rooms rn g).2 = .created
  · rcases mkResRooms_created_inv hp with ⟨room0, hfind, hg, hav⟩
    rw [makeReservation_created_state hfind hg hav]
    rcases findRoom_eq_some hfind with ⟨hmem0, hnum0⟩
    have hcount0 : activeCount h.reservations rn = 0 := by
      have h1 := hinv room0 hmem0
      rw [hav, if_pos rfl, hnum0] at h1
      exact h1
    constructor
    · show ((setAvailFirst h.rooms rn false).map Room.roomNumber).Nodup
      rw [map_roomNumber_setAvailFirst]; exact hnd
    · intro room' hmem
      rcases mem_modifyRoomFirst hnd hmem with ⟨hmem', hne⟩ | ⟨room1, hf1, heq1⟩
      · have hne' : ¬ rn = room'.roomNumber := fun hc => hne hc.symm
        show activeCount (h.reservations ++ [_]) room'.roomNumber = _
        rw [activeCount_append_single]
        simp [hne', hinv room' hmem']
      · have hr1 : room1 = room0 := by
          rw [hfind] at hf1
          exact (Option.some.inj hf1).symm
        subst heq1
        rw [hr1]
        show activeCount (h.reservations ++ [_]) _ = _
        rw [activeCount_append_single]
        simp [hnum0, hcount0]
  · rw [makeReservation_stuck_state hp]
    exact ⟨hnd, hinv⟩

theorem cancelReservation_preserves_inv {h : Hotel} (rid : Int)
    (hnd : roomsNodup h) (hinv : availInv h) :
    roomsNodup (h.cancelReservation rid).1 ∧
      availInv (h.cancelReservation rid).1 := by
  unfold Hotel.cancelReservation
  cases hr : findRes h.reservations rid with
  | none => exact ⟨hnd, hinv⟩
  | some r =>
      constructor
      · show ((setAvailFirst h.rooms r.roomNumber true).map Room.roomNumber).Nodup
        rw [map_roomNumber_setAvailFirst]; exact hnd
      · intro room' hmem
        have hcount := activeCount_removeResFirst hr
        show activeCount (removeResFirst h.reservations rid) room'.roomNumber =
          (if room'.isAvailable = true then 0 else 1)
        rcases mem_modifyRoomFirst hnd hmem with ⟨hmem', hne⟩ | ⟨room1, hf1, heq1⟩
        · have hne' : ¬ r.roomNumber = room'.roomNumber := fun hc => hne hc.symm
          have h2 := hcount room'.roomNumber
          rw [if_neg hne', Nat.add_zero] at h2
          rw [← h2]
          exact hinv room' hmem'
        · rcases findRoom_eq_some hf1 with ⟨hmem1, hnum1⟩
          have h1 := hinv room1 hmem1
          rw [hnum1] at h1
          have h2 := hcount r.roomNumber
          rw [if_pos rfl] at h2
          have hnum' : room'.roomNumber = r.roomNumber := by rw [heq1]; exact hnum1
          have hav' : room'.isAvailable = true := by rw [heq1]
          rw [hnum', hav', if_pos rfl]
          by_cases hav1 : room1.isAvailable = true
          · rw [hav1, if_pos rfl] at h1
            omega
          · simp only [if_neg hav1] at h1
            omega

theorem updateGuests_preserves_inv {h : Hotel} (rid n : Int)
    (hnd : roomsNodup h) (hinv : availInv h) :
    roomsNodup (h.updateGuests rid n).1 ∧ availInv (h.updateGuests rid n).1 := by
  rcases updateGuests_state h rid n with ⟨hrooms, _, hcount⟩
  constructor
  · show (((h.updateGuests rid n).1.rooms).map Room.roomNumber).Nodup
    rw [hrooms]; exact hnd
  · intro room' hmem
    rw [hrooms] at hmem
    rw [hcount]
    exact hinv room' hmem

theorem changeDates_preserves_inv {h : Hotel} (rid : Int) (cin cout : String)
    (hnd : roomsNodup h) (hinv : availInv h) :
    roomsNodup (h.changeDates rid cin cout).1 ∧
      availInv (h.changeDates rid cin cout).1 := by
  rcases changeDates_state h rid cin cout with ⟨hrooms, _, hcount⟩
  constructor
  · show (((h.changeDates rid cin cout).1.rooms).map Room.roomNumber).Nodup
    rw [hrooms]; exact hnd
  · intro room' hmem
    rw [hrooms] at hmem
    rw [hcount]
    exact hinv room' hmem

theorem applyOp_preserves_inv {h : Hotel} {op : Op}
    (hop : op.keepsRoomLink = true) (hnd : roomsNodup h) (hinv : availInv h) :
    roomsNodup (h.applyOp op) ∧ availInv (h.applyOp op) := by
  cases op with
  | makeRes gn ci rn cin cout g =>
      exact makeReservation_preserves_inv gn ci rn cin cout g hnd hinv
  | cancelRes rid => exact cancelReservation_preserves_inv rid hnd hinv
  | updGuests rid n => exact updateGuests_preserves_inv rid n hnd hinv
  | changeDates rid cin cout =>
      exact changeDates_preserves_inv rid cin cout hnd hinv
  | addRoom n t r s g => exact Bool.noConfusion hop
  | deleteRoom n => exact Bool.noConfusion hop
  | updateRoomRate n r => exact Bool.noConfusion hop
  | updateRoomStrategy n s => exact Bool.noConfusion hop
  | changeRoom rid rn => exact Bool.noConfusion hop

theorem runOps_preserves_inv {h : Hotel} {ops : List Op}
    (hops : ∀ op ∈ ops, op.keepsRoomLink = true)
    (hnd : roomsNodup h) (hinv : availInv h) :
    roomsNodup (h.runOps ops) ∧ availInv (h.runOps ops) := by
  induction ops generalizing h with
  | nil => exact ⟨hnd, hinv⟩
  | cons op rest ih =>
      have h1 := applyOp_preserves_inv (hops op (List.mem_cons_self _ _)) hnd hinv
      exact ih (fun o ho => hops o (List.mem_cons_of_mem _ ho)) h1.1 h1.2

/-! ### Concrete fixtures mirroring the rooms `main` installs -/

/-- Room 101 as `main` adds it (source line 490). -/
def room101 : Room :=
  { roomNumber := 101, type := .single, baseRate := 75, isAvailable := true,
    billingStrategy := .regular, maxGuests := 1 }

/-- Room 102 as `main` adds it (source line 491). -/
def room102 : Room :=
  { roomNumber := 102, type := .single, baseRate := 75, isAvailable := true,
    billingStrategy := .regular, maxGuests := 1 }

/-- Room 201 as `main` adds it (source line 493). -/
def room201 : Room :=
  { roomNumber := 201, type := .double, baseRate := 100, isAvailable := true,
    billingStrategy := .regular, maxGuests := 2 }

/-- A fresh registry holding three of `main`'s rooms, no reservations. -/
def sampleHotel : Hotel :=
  { rooms := [room101, room102, room201], reservations := [], idCounter := 0 }

/-- The registry after booking room 101 for guest Ana. -/
def bookedHotel : Hotel :=
  (sampleHotel.makeReservation "Ana" "c1" 101 "01/01/2024" "05/01/2024" 1).1

/-- The reservation `bookedHotel` holds. -/
def anaRes : Reservation :=
  { reservationID := 1, guestName := "Ana", contactInfo := "c1", roomNumber := 101,
    checkInDate := "01/01/2024", checkOutDate := "05/01/2024", numberOfGuests := 1 }

/-! ### Branch equations for the reservation-update operations -/

theorem updateGuests_eq_noRes {h : Hotel} {rid : Int} (n : Int)
    (hr : findRes h.reservations rid = none) :
    h.updateGuests rid n = (h, false) := by
  simp [Hotel.updateGuests, hr]

theorem updateGuests_eq_noRoom {h : Hotel} {rid : Int} (n : Int) {r : Reservation}
    (hr : findRes h.reservations rid = some r)
    (hf : findRoom h.rooms r.roomNumber = none) :
    h.updateGuests rid n =
      ({ h with reservations := modifyResFirst h.reservations rid (fun q => { q with numberOfGuests := n }) }, true) := by
  simp [Hotel.updateGuests, hr, hf]

theorem updateGuests_eq_reject {h : Hotel} {rid n : Int} {r : Reservation}
    {room : Room} (hr : findRes h.reservations rid = some r)
    (hf : findRoom h.rooms r.roomNumber = some room)
    (hg : room.maxGuests < n) :
    h.updateGuests rid n = (h, false) := by
  simp [Hotel.updateGuests, hr, hf, hg]

theorem updateGuests_eq_accept {h : Hotel} {rid n : Int} {r : Reservation}
    {room : Room} (hr : findRes h.reservations rid = some r)
    (hf : findRoom h.rooms r.roomNumber = some room)
    (hg : n ≤ room.maxGuests) :
    h.updateGuests rid n =
      ({ h with reservations := modifyResFirst h.reservations rid (fun q => { q with numberOfGuests := n }) }, true) := by
  simp [Hotel.updateGuests, hr, hf, not_lt.mpr hg]

theorem changeRoom_eq_noRes {h : Hotel} {rid : Int} (rn : Int)
    (hr : findRes h.reservations rid = none) :
    h.changeRoom rid rn = (h, false) := by
  simp [Hotel.changeRoom, hr]

theorem changeRoom_eq_noRoom {h : Hotel} {rid rn : Int} {r : Reservation}
    (hr : findRes h.reservations rid = some r)
    (hf : findRoom h.rooms rn = none) :
    h.changeRoom rid rn = (h, false) := by
  simp [Hotel.changeRoom, hr, hf]

theorem changeRoom_eq_reject {h : Hotel} {rid rn : Int} {r : Reservation}
    {newRoom : Room} (hr : findRes h.reservations rid = some r)
    (hf : findRoom h.rooms rn = some newRoom)
    (hg : newRoom.maxGuests < r.numberOfGuests) :
    h.changeRoom rid rn = (h, false) := by
  simp [Hotel.changeRoom, hr, hf, hg]

theorem changeRoom_eq_accept {h : Hotel} {rid rn : Int} {r : Reservation}
    {newRoom : Room} (hr : findRes h.reservations rid = some r)
    (hf : findRoom h.rooms rn = some newRoom)
    (hg : r.numberOfGuests ≤ newRoom.maxGuests) :
    h.changeRoom rid rn =
      ({ h with rooms := setAvailFirst (setAvailFirst h.rooms r.roomNumber true) rn false, reservations := modifyResFirst h.reservations rid (fun q => { q with roomNumber := rn }) }, true) := by
  simp [Hotel.changeRoom, hr, hf, not_lt.mpr hg]

theorem changeDates_eq_noRes {h : Hotel} {rid : Int} (cin cout : String)
    (hr : findRes h.reservations rid = none) :
    h.changeDates rid cin cout = (h, false) := by
  simp [Hotel.changeDates, hr]

theorem changeDates_eq_found {h : Hotel} {rid : Int} (cin cout : String)
    {r : Reservation} (hr : findRes h.reservations rid = some r) :
    h.changeDates rid cin cout =
      ({ h with reservations := modifyResFirst h.reservations rid (fun q => { q with checkInDate := cin, checkOutDate := cout }) }, true) := by
  simp [Hotel.changeDates, hr]

theorem cancelReservation_eq_noRes {h : Hotel} {rid : Int}
    (hr : findRes h.reservations rid = none) :
    h.cancelReservation rid = (h, false) := by
  simp [Hotel.cancelReservation, hr]

theorem cancelReservation_eq_found {h : Hotel} {rid : Int} {r : Reservation}
    (hr : findRes h.reservations rid = some r) :
    h.cancelReservation rid =
      ({ h with rooms := setAvailFirst h.rooms r.roomNumber true,
                reservations := removeResFirst h.reservations rid }, true) := by
  simp [Hotel.cancelReservation, hr]

/-! ### Reservation-id bookkeeping -/

/-- Every reservation's id is bounded by the counter (true initially: no
reservations, counter `0`). -/
def idInv (h : Hotel) : Prop :=
  ∀ r ∈ h.reservations, r.reservationID ≤ h.idCounter

theorem forall_id_modifyResFirst (rs : List Reservation) (rid : Int)
    (f : Reservation → Reservation)
    (hf : ∀ q, (f q).reservationID = q.reservationID)
    (P : Int → Prop) (hP : ∀ r ∈ rs, P r.reservationID) :
    ∀ r' ∈ modifyResFirst rs rid f, P r'.reservationID := by
  intro r' hmem
  rcases mem_modifyResFirst hmem with hold | ⟨r, hfind, heq⟩
  · exact hP r' hold
  · rw [heq, hf]
    exact hP r (findRes_eq_some hfind).1

theorem updateGuests_id_facts (h : Hotel) (rid n : Int) (hinv : idInv h) :
    idInv (h.updateGuests rid n).1 ∧ (h.updateGuests rid n).1.idCounter = h.idCounter := by
  have hall := forall_id_modifyResFirst h.reservations rid
    (fun q => { q with numberOfGuests := n }) (fun _ => rfl)
    (fun i => i ≤ h.idCounter) hinv
  cases hr : findRes h.reservations rid with
  | none =>
      rw [updateGuests_eq_noRes n hr]
      exact ⟨hinv, rfl⟩
  | some r =>
      cases hf : findRoom h.rooms r.roomNumber with
      | none =>
          rw [updateGuests_eq_noRoom n hr hf]
          exact ⟨hall, rfl⟩
      | some room =>
          by_cases hg : room.maxGuests < n
          · rw [updateGuests_eq_reject hr hf hg]
            exact ⟨hinv, rfl⟩
          · rw [updateGuests_eq_accept hr hf (not_lt.mp hg)]
            exact ⟨hall, rfl⟩

theorem changeRoom_id_facts (h : Hotel) (rid rn : Int) (hinv : idInv h) :
    idInv (h.changeRoom rid rn).1 ∧ (h.changeRoom rid rn).1.idCounter = h.idCounter := by
  have hall := forall_id_modifyResFirst h.reservations rid
    (fun q => { q with roomNumber := rn }) (fun _ => rfl)
    (fun i => i ≤ h.idCounter) hinv
  cases hr : findRes h.reservations rid with
  | none =>
      rw [changeRoom_eq_noRes rn hr]
      exact ⟨hinv, rfl⟩
  | some r =>
      cases hf : findRoom h.rooms rn with
      | none =>
          rw [changeRoom_eq_noRoom hr hf]
          exact ⟨hinv, rfl⟩
      | some room =>
          by_cases hg : room.maxGuests < r.numberOfGuests
          · rw [changeRoom_eq_reject hr hf hg]
            exact ⟨hinv, rfl⟩
          · rw [changeRoom_eq_accept hr hf (not_lt.mp hg)]
            exact ⟨hall, rfl⟩

theorem changeDates_id_facts (h : Hotel) (rid : Int) (cin cout : String)
    (hinv : idInv h) :
    idInv (h.changeDates rid cin cout).1 ∧
      (h.changeDates rid cin cout).1.idCounter = h.idCounter := by
  cases hr : findRes h.reservations rid with
  | none =>
      rw [changeDates_eq_noRes cin cout hr]
      exact ⟨hinv, rfl⟩
  | some r =>
      rw [changeDates_eq_found cin cout hr]
      exact ⟨forall_id_modifyResFirst h.reservations rid
        (fun q => { q with checkInDate := cin, checkOutDate := cout }) (fun _ => rfl)
        (fun i => i ≤ h.idCounter) hinv, rfl⟩

theorem cancelReservation_id_facts (h : Hotel) (rid : Int) (hinv : idInv h) :
    idInv (h.cancelReservation rid).1 ∧
      (h.cancelReservation rid).1.idCounter = h.idCounter := by
  cases hr : findRes h.reservations rid with
  | none =>
      rw [cancelReservation_eq_noRes hr]
      exact ⟨hinv, rfl⟩
  | some r =>
      rw [cancelReservation_eq_found hr]
      exact ⟨fun r' hmem => hinv r' (mem_removeResFirst hmem), rfl⟩

theorem makeReservation_id_facts (h : Hotel) (gn ci : String) (rn : Int)
    (cin cout : String) (g : Int) (hinv : idInv h) :
    idInv (h.makeReservation gn ci rn cin cout g).1 ∧
      h.idCounter ≤ (h.makeReservation gn ci rn cin cout g).1.idCounter := by
  by_cases hp : (mkResRooms h.rooms rn g).2 = .created
  · rcases mkResRooms_created_inv hp with ⟨room0, hfind, hg, hav⟩
    rw [makeReservation_created_state hfind hg hav]
    constructor
    · intro r' hmem
      show r'.reservationID ≤ h.idCounter + 1
      rcases List.mem_append.mp hmem with hold | hnew
      · exact le_trans (hinv r' hold) (by omega)
      · rw [List.mem_singleton.mp hnew]
    · show h.idCounter ≤ h.idCounter + 1
      omega
  · rw [makeReservation_stuck_state hp]
    exact ⟨hinv, le_refl _⟩

theorem applyOp_id_facts (h : Hotel) (op : Op) (hinv : idInv h) :
    idInv (h.applyOp op) ∧ h.idCounter ≤ (h.applyOp op).idCounter := by
  cases op with
  | addRoom n t r s g => exact ⟨hinv, le_refl _⟩
  | deleteRoom n => exact ⟨hinv, le_refl _⟩
  | updateRoomRate n r => exact ⟨hinv, le_refl _⟩
  | updateRoomStrategy n s => exact ⟨hinv, le_refl _⟩
  | makeRes gn ci rn cin cout g => exact makeReservation_id_facts h gn ci rn cin cout g hinv
  | cancelRes rid =>
      rcases cancelReservation_id_facts h rid hinv with ⟨h1, h2⟩
      exact ⟨h1, le_of_eq h2.symm⟩
  | updGuests rid n =>
      rcases updateGuests_id_facts h rid n hinv with ⟨h1, h2⟩
      exact ⟨h1, le_of_eq h2.symm⟩
  | changeRoom rid rn =>
      rcases changeRoom_id_facts h rid rn hinv with ⟨h1, h2⟩
      exact ⟨h1, le_of_eq h2.symm⟩
  | changeDates rid cin cout =>
      rcases changeDates_id_facts h rid cin cout hinv with ⟨h1, h2⟩
      exact ⟨h1, le_of_eq h2.symm⟩

/-! ### Guest-capacity bookkeeping -/

theorem makeReservation_preserves_guestInv (h : Hotel) (gn ci : String) (rn : Int)
    (cin cout : String) (g : Int) (hinv : guestInv h) :
    guestInv (h.makeReservation gn ci rn cin cout g).1 := by
  by_cases hp : (mkResRooms h.rooms rn g).2 = .created
  · rcases mkResRooms_created_inv hp with ⟨room0, hfind, hg, hav⟩
    rw [makeReservation_created_state hfind hg hav]
    intro r' hmem room' hfind'
    have hfind2 : findRoom (setAvailFirst h.rooms rn false) r'.roomNumber = some room' := hfind'
    have hmem2 : r' ∈ h.reservations ++ [({ reservationID := h.idCounter + 1, guestName := gn, contactInfo := ci, roomNumber := rn, checkInDate := cin, checkOutDate := cout, numberOfGuests := g } : Reservation)] := hmem
    have hfr : findRoom (setAvailFirst h.rooms rn false) r'.roomNumber =
        (if r'.roomNumber = rn then
          (findRoom h.rooms rn).map (fun room => { room with isAvailable := false })
        else findRoom h.rooms r'.roomNumber) :=
      findRoom_modifyRoomFirst (fun _ => rfl)
    rw [hfr] at hfind2
    rcases List.mem_append.mp hmem2 with hold | hnew
    · by_cases hcase : r'.roomNumber = rn
      · rw [if_pos hcase, hfind] at hfind2
        have hroom : room' = { room0 with isAvailable := false } := by
          simpa using hfind2.symm
        rw [hroom]
        show r'.numberOfGuests ≤ room0.maxGuests
        exact hinv r' hold room0 (by rw [hcase]; exact hfind)
      · rw [if_neg hcase] at hfind2
        exact hinv r' hold room' hfind2
    · have hr' : r' = ({ reservationID := h.idCounter + 1, guestName := gn, contactInfo := ci, roomNumber := rn, checkInDate := cin, checkOutDate := cout, numberOfGuests := g } : Reservation) :=
        List.mem_singleton.mp hnew
      have hnum : r'.roomNumber = rn := by rw [hr']
      rw [hnum, if_pos rfl, hfind] at hfind2
      have hroom : room' = { room0 with isAvailable := false } := by
        simpa using hfind2.symm
      have hguests : r'.numberOfGuests = g := by rw [hr']
      rw [hroom]
      show r'.numberOfGuests ≤ room0.maxGuests
      rw [hguests]
      exact hg
  · rw [makeReservation_stuck_state hp]
    exact hinv

theorem updateGuests_preserves_guestInv (h : Hotel) (rid n : Int)
    (hinv : guestInv h) : guestInv (h.updateGuests rid n).1 := by
  cases hr : findRes h.reservations rid with
  | none =>
      rw [updateGuests_eq_noRes n hr]
      exact hinv
  | some r =>
      cases hf : findRoom h.rooms r.roomNumber with
      | none =>
          rw [updateGuests_eq_noRoom n hr hf]
          intro r' hmem room' hfind'
          rcases mem_modifyResFirst hmem with hold | ⟨q, hfq, heq⟩
          · exact hinv r' hold room' hfind'
          · have hq : q = r := by rw [hr] at hfq; exact (Option.some.inj hfq).symm
            rw [heq, hq] at hfind'
            rw [show ((fun q => ({ q with numberOfGuests := n } : Reservation)) r).roomNumber
                = r.roomNumber from rfl] at hfind'
            rw [hf] at hfind'
            exact absurd hfind' (by simp)
      | some room =>
          by_cases hg : room.maxGuests < n
          · rw [updateGuests_eq_reject hr hf hg]
            exact hinv
          · rw [updateGuests_eq_accept hr hf (not_lt.mp hg)]
            intro r' hmem room' hfind'
            rcases mem_modifyResFirst hmem with hold | ⟨q, hfq, heq⟩
            · exact hinv r' hold room' hfind'
            · have hq : q = r := by rw [hr] at hfq; exact (Option.some.inj hfq).symm
              rw [heq, hq] at hfind' ⊢
              rw [show ((fun q => ({ q with numberOfGuests := n } : Reservation)) r).roomNumber
                  = r.roomNumber from rfl] at hfind'
              rw [hf] at hfind'
              have hrm : room' = room := Option.some.inj hfind'.symm
              rw [hrm]
              show n ≤ room.maxGuests
              exact not_lt.mp hg

/-! ### Claim theorems -/

/-- C4: for check-in `01/01/2024` and check-out `05/01/2024`, the night count
computed by the §4.4.1 algorithm of `viewReservationDetails` is `35`, not the
`4` the spec's testable property asserts: for a same-month stay the formula
adds the whole remaining month (`31 - 1`) before adding the check-out day. -/
theorem nightCount_jan1_to_jan5 :
    viewNights "01/01/2024" "05/01/2024" = .ok 35 ∧ (35 : Int) ≠ 4 := by
  decide

/-- C5: `viewReservationDetails` raises `InvalidDateRange` exactly when the
lexicographic (year, month, day) rule is violated; any other day/month/year
triple is accepted, with no genuine calendar validation (day `40` of January
passes and even contributes to the night count). -/
theorem invalidDateRange_iff (din dout : ParsedDate) :
    (computeNights din dout = .error .invalidDateRange ↔
      (din.year > dout.year ∨ (din.year = dout.year ∧ din.month > dout.month) ∨
        (din.year = dout.year ∧ din.month = dout.month ∧ din.day ≥ dout.day))) ∧
    computeNights ⟨40, 1, 2024⟩ ⟨45, 1, 2024⟩ = .ok 36 := by
  constructor
  · have hb : invalidRange din dout = true ↔
        (din.year > dout.year ∨ (din.year = dout.year ∧ din.month > dout.month) ∨
          (din.year = dout.year ∧ din.month = dout.month ∧ din.day ≥ dout.day)) := by
      simp only [invalidRange, Bool.or_eq_true, Bool.and_eq_true,
        decide_eq_true_eq, beq_iff_eq]
      tauto
    constructor
    · intro he
      by_cases hir : invalidRange din dout = true
      · exact hb.mp hir
      · have hfalse : invalidRange din dout = false := by
          revert hir
          cases invalidRange din dout <;> simp
        simp [computeNights, hfalse] at he
    · intro hcond
      simp [computeNights, hb.mpr hcond]
  · decide

/-- C9: the billing policies compute Regular `baseRate * nights`, Premium
`baseRate * nights * 1.10`, Corporate `baseRate * nights * 0.85` (doubles
modelled exactly over `ℚ`), and at `baseRate = 100`, `nights = 3` they yield
`300`, `330` and `255`, which print as `300.00`, `330.00`, `255.00` at two
decimal places. -/
theorem billing_amounts :
    (∀ (baseRate : ℚ) (nights : Int), 0 < nights →
      BillingStrategy.calculateBill .regular baseRate nights = baseRate * nights ∧
      BillingStrategy.calculateBill .premium baseRate nights =
        baseRate * nights * (11 / 10) ∧
      BillingStrategy.calculateBill .corporate baseRate nights =
        baseRate * nights * (17 / 20)) ∧
    BillingStrategy.calculateBill .regular 100 3 = 300 ∧
    BillingStrategy.calculateBill .premium 100 3 = 330 ∧
    BillingStrategy.calculateBill .corporate 100 3 = 255 := by
  refine ⟨fun baseRate nights _ => ⟨rfl, ?_, ?_⟩, ?_, ?_, ?_⟩ <;>
    norm_num [BillingStrategy.calculateBill]

/-- C9 witness: the general statement applied at `baseRate = 100`,
`nights = 3`. -/
theorem billing_amounts_witness :
    (0 : Int) < 3 ∧
      BillingStrategy.calculateBill .premium 100 3 = 100 * ((3 : Int) : ℚ) * (11 / 10) :=
  ⟨by decide, ((billing_amounts.1 100 3 (by decide)).2).1⟩

/-- C10: `Room::calculateBill` fails with `InvalidArgument` for every
`nights ≤ 0` (before any billing policy runs) and for every positive `nights`
returns the room's policy amount without error. -/
theorem computeBill_contract (room : Room) (nights : Int) :
    (nights ≤ 0 → room.calculateBill nights = .error .invalidArgument) ∧
    (0 < nights → room.calculateBill nights =
      .ok (room.billingStrategy.calculateBill room.baseRate nights)) := by
  constructor
  · intro hle
    simp [Room.calculateBill, hle]
  · intro hpos
    simp [Room.calculateBill, not_le.mpr hpos]

/-- C10 witness: room 101 with `nights = 0` fails, with `nights = 3`
succeeds. -/
theorem computeBill_contract_witness :
    ((0 : Int) ≤ 0 ∧ room101.calculateBill 0 = .error .invalidArgument) ∧
    ((0 : Int) < 3 ∧ room101.calculateBill 3 =
      .ok (room101.billingStrategy.calculateBill room101.baseRate 3)) :=
  ⟨⟨by decide, (computeBill_contract room101 0).1 (by decide)⟩,
   ⟨by decide, (computeBill_contract room101 3).2 (by decide)⟩⟩

/-- C2: the `makeReservation` contract: unknown room leaves the registry
unchanged with a not-found report; over-capacity and unavailable rooms are
rejected (capacity checked first) with nothing created or changed; otherwise
the room is marked unavailable and the reservation appended, so a second
attempt against the same room number can never also succeed. -/
theorem makeReservation_contract (h : Hotel) (gn ci : String) (rn : Int)
    (cin cout : String) (g : Int) :
    (findRoom h.rooms rn = none →
      h.makeReservation gn ci rn cin cout g = (h, .notFound)) ∧
    (∀ room, findRoom h.rooms rn = some room → room.maxGuests < g →
      h.makeReservation gn ci rn cin cout g = (h, .capacityExceeded)) ∧
    (∀ room, findRoom h.rooms rn = some room → g ≤ room.maxGuests →
      room.isAvailable = false →
      h.makeReservation gn ci rn cin cout g = (h, .roomUnavailable)) ∧
    (∀ room, findRoom h.rooms rn = some room → g ≤ room.maxGuests →
      room.isAvailable = true →
      h.makeReservation gn ci rn cin cout g =
        ({ rooms := setAvailFirst h.rooms rn false, reservations := h.reservations ++ [{ reservationID := h.idCounter + 1, guestName := gn, contactInfo := ci, roomNumber := rn, checkInDate := cin, checkOutDate := cout, numberOfGuests := g }], idCounter := h.idCounter + 1 }, .created)) ∧
    (∀ gn2 ci2 cin2 cout2 g2,
      (h.makeReservation gn ci rn cin cout g).2 = .created →
      ((h.makeReservation gn ci rn cin cout g).1.makeReservation
        gn2 ci2 rn cin2 cout2 g2).2 ≠ .created) := by
  refine ⟨?_, ?_, ?_, ?_, ?_⟩
  · intro hnone
    have heq := mkResRooms_of_none g hnone
    have hne : (mkResRooms h.rooms rn g).2 ≠ .created := by
      rw [heq]
      exact fun hc => MkOutcome.noConfusion hc
    rw [makeReservation_stuck_state hne, heq]
  · intro room hfind hg
    have heq := mkResRooms_capacity hfind hg
    have hne : (mkResRooms h.rooms rn g).2 ≠ .created := by
      rw [heq]
      exact fun hc => MkOutcome.noConfusion hc
    rw [makeReservation_stuck_state hne, heq]
  · intro room hfind hg hav
    have heq := mkResRooms_unavailable hfind hg hav
    have hne : (mkResRooms h.rooms rn g).2 ≠ .created := by
      rw [heq]
      exact fun hc => MkOutcome.noConfusion hc
    rw [makeReservation_stuck_state hne, heq]
  · intro room hfind hg hav
    exact makeReservation_created_state hfind hg hav
  · intro gn2 ci2 cin2 cout2 g2 hcr hcr2
    have hp : (mkResRooms h.rooms rn g).2 = .created := by
      by_contra hne
      rw [makeReservation_stuck_state hne] at hcr
      exact hne hcr
    rcases mkResRooms_created_inv hp with ⟨room0, hfind, hg, hav⟩
    have hrooms1 : (h.makeReservation gn ci rn cin cout g).1.rooms =
        setAvailFirst h.rooms rn false := by
      rw [makeReservation_created_state hfind hg hav]
    have hp2 : (mkResRooms (h.makeReservation gn ci rn cin cout g).1.rooms rn g2).2
        = .created := by
      by_contra hne2
      rw [makeReservation_stuck_state hne2] at hcr2
      exact hne2 hcr2
    rw [hrooms1] at hp2
    rcases mkResRooms_created_inv hp2 with ⟨room1, hfind1, hg1, hav1⟩
    have hfr : findRoom (setAvailFirst h.rooms rn false) rn =
        (if rn = rn then
          (findRoom h.rooms rn).map (fun room => { room with isAvailable := false })
        else findRoom h.rooms rn) :=
      findRoom_modifyRoomFirst (fun _ => rfl)
    have hfind2 : findRoom (setAvailFirst h.rooms rn false) rn =
        some { room0 with isAvailable := false } := by
      rw [hfr, if_pos rfl, hfind]
      rfl
    rw [hfind2] at hfind1
    have hroom1 : room1 = { room0 with isAvailable := false } :=
      (Option.some.inj hfind1).symm
    rw [hroom1] at hav1
    exact Bool.noConfusion hav1

/-- C2 witness: booking a nonexistent room number 999 on the sample registry
reports not-found and changes nothing. -/
theorem makeReservation_contract_witness :
    findRoom sampleHotel.rooms 999 = none ∧
      sampleHotel.makeReservation "Ana" "c1" 999 "01/01/2024" "02/01/2024" 1 =
        (sampleHotel, .notFound) :=
  ⟨by decide,
   (makeReservation_contract sampleHotel "Ana" "c1" 999 "01/01/2024" "02/01/2024" 1).1
     (by decide)⟩

/-- C7: the `cancelReservation` contract: unknown id leaves the registry
unchanged with a not-found report; otherwise the first room carrying the
reservation's number is set available again and the reservation is removed;
when that room no longer exists the availability update is a no-op while the
reservation is still removed. -/
theorem cancelReservation_contract (h : Hotel) (rid : Int) :
    (findRes h.reservations rid = none → h.cancelReservation rid = (h, false)) ∧
    (∀ r, findRes h.reservations rid = some r →
      h.cancelReservation rid =
        ({ h with rooms := setAvailFirst h.rooms r.roomNumber true, reservations := removeResFirst h.reservations rid }, true) ∧
      (findRoom h.rooms r.roomNumber = none →
        (h.cancelReservation rid).1.rooms = h.rooms)) := by
  refine ⟨fun hf => cancelReservation_eq_noRes hf,
    fun r hr => ⟨cancelReservation_eq_found hr, fun hnone => ?_⟩⟩
  rw [cancelReservation_eq_found hr]
  show setAvailFirst h.rooms r.roomNumber true = h.rooms
  exact modifyRoomFirst_of_findRoom_none hnone

/-- C7 witness: cancelling reservation 1 on the booked registry frees room
101 and removes the reservation. -/
theorem cancelReservation_contract_witness :
    findRes bookedHotel.reservations 1 = some anaRes ∧
      bookedHotel.cancelReservation 1 =
        ({ bookedHotel with rooms := setAvailFirst bookedHotel.rooms anaRes.roomNumber true, reservations := removeResFirst bookedHotel.reservations 1 }, true) :=
  ⟨by decide,
   ((cancelReservation_contract bookedHotel 1).2 anaRes (by decide)).1⟩

/-- C3 (amended): `updateReservation`'s change-room sub-operation re-validates
the guest count against the new room's capacity and, when the new room exists
and has capacity, frees the old room and occupies the new room even when the
new room is currently unavailable; only a missing reservation, a missing new
room, or exceeded capacity leaves the state unchanged. -/
theorem changeRoom_contract (h : Hotel) (rid newRn : Int) :
    (findRes h.reservations rid = none → h.changeRoom rid newRn = (h, false)) ∧
    (∀ r, findRes h.reservations rid = some r → findRoom h.rooms newRn = none →
      h.changeRoom rid newRn = (h, false)) ∧
    (∀ r newRoom, findRes h.reservations rid = some r →
      findRoom h.rooms newRn = some newRoom →
      newRoom.maxGuests < r.numberOfGuests → h.changeRoom rid newRn = (h, false)) ∧
    (∀ r newRoom, findRes h.reservations rid = some r →
      findRoom h.rooms newRn = some newRoom →
      r.numberOfGuests ≤ newRoom.maxGuests →
      h.changeRoom rid newRn =
        ({ h with rooms := setAvailFirst (setAvailFirst h.rooms r.roomNumber true) newRn false, reservations := modifyResFirst h.reservations rid (fun q => { q with roomNumber := newRn }) }, true)) :=
  ⟨fun hr => changeRoom_eq_noRes newRn hr,
   fun _ hr hf => changeRoom_eq_noRoom hr hf,
   fun _ _ hr hf hg => changeRoom_eq_reject hr hf hg,
   fun _ _ hr hf hg => changeRoom_eq_accept hr hf hg⟩

/-- C3 witness: moving reservation 1 from room 101 to the available room 201
frees 101 and occupies 201. -/
theorem changeRoom_contract_witness :
    (findRes bookedHotel.reservations 1 = some anaRes ∧
      findRoom bookedHotel.rooms 201 = some room201 ∧
      anaRes.numberOfGuests ≤ room201.maxGuests) ∧
    bookedHotel.changeRoom 1 201 =
      ({ bookedHotel with rooms := setAvailFirst (setAvailFirst bookedHotel.rooms anaRes.roomNumber true) 201 false, reservations := modifyResFirst bookedHotel.reservations 1 (fun q => { q with roomNumber := 201 }) }, true) :=
  ⟨⟨by decide, by decide, by decide⟩,
   (changeRoom_contract bookedHotel 1 201).2.2.2 anaRes room201
     (by decide) (by decide) (by decide)⟩

/-- Two occupied double rooms, each with its own reservation: the setting in
which the change-room operation double-books. -/
def doubleBookedHotel : Hotel :=
  { rooms :=
      [{ roomNumber := 101, type := .double, baseRate := 100, isAvailable := false,
         billingStrategy := .regular, maxGuests := 2 },
       { roomNumber := 102, type := .double, baseRate := 100, isAvailable := false,
         billingStrategy := .regular, maxGuests := 2 }],
    reservations :=
      [{ reservationID := 1, guestName := "Ana", contactInfo := "c1", roomNumber := 101,
         checkInDate := "01/01/2024", checkOutDate := "02/01/2024", numberOfGuests := 1 },
       { reservationID := 2, guestName := "Ben", contactInfo := "c2", roomNumber := 102,
         checkInDate := "01/01/2024", checkOutDate := "02/01/2024", numberOfGuests := 1 }],
    idCounter := 2 }

/-- C3 counterexample: room 101 is unavailable, yet moving reservation 2 onto
it mutates the state (the code never checks the new room's availability),
contradicting the claim that an unavailable new room prevents mutation. -/
theorem changeRoom_unavailable_cex :
    (findRoom doubleBookedHotel.rooms 101).map Room.isAvailable = some false ∧
      (doubleBookedHotel.changeRoom 2 101).1 ≠ doubleBookedHotel := by
  decide

/-- C1 (amended): starting from a consistent registry (distinct room numbers;
each room's active-reservation count is 0 when available and 1 when not, as in
a fresh registry), after every sequence of `makeReservation`,
`cancelReservation`, and `updateReservation` guest-count and date changes, a
room's `isAvailable` flag is false exactly when one active reservation
references its number.  The change-room sub-operation is excluded: it can
double-book an occupied room (see the counterexample). -/
theorem availability_invariant (h : Hotel) (ops : List Op)
    (hnd : roomsNodup h) (hinv : availInv h)
    (hops : ∀ op ∈ ops, op.keepsRoomLink = true) :
    ∀ room ∈ (h.runOps ops).rooms,
      (room.isAvailable = false ↔
        activeCount (h.runOps ops).reservations room.roomNumber = 1) := by
  rcases runOps_preserves_inv hops hnd hinv with ⟨-, hinv2⟩
  intro room hmem
  have hc := hinv2 room hmem
  cases hb : room.isAvailable with
  | false =>
      rw [hb] at hc
      simp at hc
      simp [hc]
  | true =>
      rw [hb] at hc
      simp at hc
      simp [hc]

/-- A reservation-safe run: book 101, cancel it, book 101 again. -/
def opsWitness : List Op :=
  [Op.makeRes "Ana" "c1" 101 "01/01/2024" "05/01/2024" 1,
   Op.cancelRes 1,
   Op.makeRes "Ben" "c2" 101 "02/01/2024" "06/01/2024" 1]

/-- C1 witness: the invariant theorem applied to the sample registry and a
book/cancel/rebook run. -/
theorem availability_invariant_witness :
    roomsNodup sampleHotel ∧ availInv sampleHotel ∧
      (∀ op ∈ opsWitness, op.keepsRoomLink = true) ∧
      ∀ room ∈ (sampleHotel.runOps opsWitness).rooms,
        (room.isAvailable = false ↔
          activeCount (sampleHotel.runOps opsWitness).reservations room.roomNumber = 1) :=
  ⟨by decide, by decide, by decide,
   availability_invariant sampleHotel opsWitness (by decide) (by decide) (by decide)⟩

/-- Book rooms 101 and 102, then move reservation 2 onto the occupied
room 101 through the change-room sub-operation. -/
def opsCex : List Op :=
  [Op.makeRes "Ana" "c1" 101 "01/01/2024" "05/01/2024" 1,
   Op.makeRes "Ben" "c2" 102 "02/01/2024" "06/01/2024" 1,
   Op.changeRoom 2 101]

/-- C1 counterexample: after `makeReservation`, `makeReservation`, and an
`updateReservation` change-room, room 101 is unavailable while two active
reservations reference it, so the claimed equivalence fails as stated over
all three registry operations. -/
theorem availability_invariant_cex :
    ¬ (∀ room ∈ (sampleHotel.runOps opsCex).rooms,
        (room.isAvailable = false ↔
          activeCount (sampleHotel.runOps opsCex).reservations room.roomNumber = 1)) := by
  decide

/-- C6: from any state whose counter is nonnegative and bounds every stored
id, each registry operation keeps that bound and never decreases the counter,
and a successful `makeReservation` appends a reservation whose id is the
incremented counter: positive and strictly greater than every id assigned
before it, so ids are never reused even after cancellations. -/
theorem reservation_ids_monotonic (h : Hotel) (hc : 0 ≤ h.idCounter)
    (hinv : ∀ r ∈ h.reservations, r.reservationID ≤ h.idCounter) :
    (∀ op : Op,
      (∀ r ∈ (h.applyOp op).reservations,
        r.reservationID ≤ (h.applyOp op).idCounter) ∧
      0 ≤ (h.applyOp op).idCounter ∧ h.idCounter ≤ (h.applyOp op).idCounter) ∧
    (∀ gn ci rn cin cout g,
      (h.makeReservation gn ci rn cin cout g).2 = .created →
      (h.makeReservation gn ci rn cin cout g).1.reservations =
        h.reservations ++ [{ reservationID := h.idCounter + 1, guestName := gn, contactInfo := ci, roomNumber := rn, checkInDate := cin, checkOutDate := cout, numberOfGuests := g }] ∧
      0 < h.idCounter + 1 ∧
      ∀ r ∈ h.reservations, r.reservationID < h.idCounter + 1) := by
  constructor
  · intro op
    rcases applyOp_id_facts h op hinv with ⟨h1, h2⟩
    exact ⟨h1, le_trans hc h2, h2⟩
  · intro gn ci rn cin cout g hcr
    have hp : (mkResRooms h.rooms rn g).2 = .created := by
      by_contra hne
      rw [makeReservation_stuck_state hne] at hcr
      exact hne hcr
    rcases mkResRooms_created_inv hp with ⟨room0, hfind, hg, hav⟩
    refine ⟨?_, by omega, fun r hr => ?_⟩
    · rw [makeReservation_created_state hfind hg hav]
    · have := hinv r hr
      omega

/-- C6 witness: the monotonicity statement applied to the fresh sample
registry and a first booking. -/
theorem reservation_ids_monotonic_witness :
    ((0 : Int) ≤ sampleHotel.idCounter ∧
      (∀ r ∈ sampleHotel.reservations, r.reservationID ≤ sampleHotel.idCounter)) ∧
    (∀ r ∈ (sampleHotel.applyOp
        (Op.makeRes "Ana" "c1" 101 "01/01/2024" "05/01/2024" 1)).reservations,
      r.reservationID ≤ (sampleHotel.applyOp
        (Op.makeRes "Ana" "c1" 101 "01/01/2024" "05/01/2024" 1)).idCounter) :=
  ⟨⟨by decide, by decide⟩,
   ((reservation_ids_monotonic sampleHotel (by decide) (by decide)).1
     (Op.makeRes "Ana" "c1" 101 "01/01/2024" "05/01/2024" 1)).1⟩

/-- C8 (amended): if every reservation's guest count fits the capacity of the
first room carrying its number (whenever such a room exists), then the same
holds after every `makeReservation` and after every `updateReservation`
guest-count change.  The positivity half of the original claim is false: the
code never checks `guests >= 1` (see the counterexample). -/
theorem guest_capacity_invariant (h : Hotel) (hinv : guestInv h) :
    (∀ gn ci rn cin cout g, guestInv (h.makeReservation gn ci rn cin cout g).1) ∧
    (∀ rid n, guestInv (h.updateGuests rid n).1) :=
  ⟨fun gn ci rn cin cout g =>
    makeReservation_preserves_guestInv h gn ci rn cin cout g hinv,
   fun rid n => updateGuests_preserves_guestInv h rid n hinv⟩

/-- C8 witness: the capacity invariant applied to the sample registry and a
first booking. -/
theorem guest_capacity_invariant_witness :
    guestInv sampleHotel ∧
      guestInv (sampleHotel.makeReservation "Ana" "c1" 101 "01/01/2024" "05/01/2024" 1).1 := by
  have hinv : guestInv sampleHotel := fun r hr => absurd hr (List.not_mem_nil r)
  exact ⟨hinv, (guest_capacity_invariant sampleHotel hinv).1
    "Ana" "c1" 101 "01/01/2024" "05/01/2024" 1⟩

/-- C8 counterexample: `makeReservation` accepts `guests = 0` (the code only
checks `guests > maxGuests`), so the registry holds a reservation whose
`numberOfGuests` is not positive, refuting the positivity half of the
claim. -/
theorem guest_positivity_cex :
    (sampleHotel.makeReservation "Ana" "c1" 101 "01/01/2024" "02/01/2024" 0).2
        = .created ∧
      ∃ r ∈ (sampleHotel.makeReservation
          "Ana" "c1" 101 "01/01/2024" "02/01/2024" 0).1.reservations,
        ¬ 0 < r.numberOfGuests := by
  decide

end HotelMgmt
